import Mathlib

/-!
Shallow embedding of the source-coordination core (`source.go` of the gps
package): the `sourceGateway` state machine, its `require` routine, the
public gateway operations, and the `baseVCSSource` adapter.

Backend behaviour (the VCS adapter selected by the candidate probe, and the
repository object wrapped by `baseVCSSource`) is modelled as an oracle: a
structure of response fields, one per backend operation.  Every supervisor
dispatch (`suprvsr.do`) and every candidate-probe invocation (`maybe.try`)
is recorded in a call log so that "no supervisor dispatch happens" claims
can be stated as equalities on the log.
-/

set_option autoImplicit false

namespace Gps

/-- Versions are named handles (branch, tag, semver); plain strings here. -/
abbrev Version := String

/-- Revisions are the backend's immutable identifiers. -/
abbrev Revision := String

/-- A paired version: a version plus the revision it currently points to. -/
abbrev PairedVersion := Version × Revision

abbrev ProjectRoot := String

/-- Manifests are opaque to the core; an atom suffices for the embedding. -/
abbrev Manifest := Nat

/-- Locks are opaque to the core. -/
abbrev Lock := Nat

/-- Package trees are opaque to the core. -/
abbrev PackageTree := Nat

/-- A project analyzer, reduced to its cache identity `Info() = (name, version)`. -/
structure ProjectAnalyzer where
  name : String
  vers : Nat
deriving DecidableEq, Repr

/-- Go errors, as produced by `fmt.Errorf`; `wrapped` keeps a wrapped cause. -/
inductive GoErr where
  | msg : String → GoErr
  | wrapped : String → GoErr → GoErr
  | nilSrc : GoErr
deriving DecidableEq, Repr

/-- The error text of `convertToRevision`'s miss case
(`fmt.Errorf("version %q does not exist in source", v)`). -/
def noSuchVersion (v : Version) : GoErr :=
  GoErr.msg ("version " ++ v ++ " does not exist in source")

/-- Supervisor call categories (`ctSourcePing`, ...), plus a tag for the
candidate probe `maybe.try`, which also performs backend work. -/
inductive CallTag where
  | maybeTry
  | srcPing
  | srcInit
  | srcFetch
  | listVersions
  | getManifestAndLock
  | listPackages
  | exportTree
deriving DecidableEq, Repr

/-- `sourceState` bit: adapter selected and bound (`sourceIsSetUp = 1 << 0`). -/
def sourceIsSetUp : Nat := 1

/-- `sourceState` bit: upstream reachable (`1 << 1`). -/
def sourceExistsUpstream : Nat := 2

/-- `sourceState` bit: on-disk clone present (`1 << 2`). -/
def sourceExistsLocally : Nat := 4

/-- `sourceState` bit: version list reflects an upstream query (`1 << 3`). -/
def sourceHasLatestVersionList : Nat := 8

/-- `sourceState` bit: clone synced in this process lifetime (`1 << 4`). -/
def sourceHasLatestLocally : Nat := 16

/-- `sourceExistence` flag `existsInVendorRoot = 1 << iota`. -/
def existsInVendorRoot : Nat := 1

/-- `sourceExistence` flag `existsInCache`. -/
def existsInCache : Nat := 2

/-- `sourceExistence` flag `existsUpstream`. -/
def existsUpstream : Nat := 4

/-- Association-list lookup with decidable key equality. -/
def alistGet {κ α : Type} [DecidableEq κ] : List (κ × α) → κ → Option α
  | [], _ => none
  | (k, a) :: t, k' => if k = k' then some a else alistGet t k'

/-- Association-list insert/overwrite: a fresh binding shadows older ones. -/
def alistPut {κ α : Type} (l : List (κ × α)) (k : κ) (a : α) : List (κ × α) :=
  (k, a) :: l

/-- Modelled from the spec: the in-memory single-source cache (§4.1 of the
spec; the memory-cache code itself is outside `source.go`).  Holds the
version list with its indices, the per-(revision, analyzer) manifest/lock
memo, and the per-revision package-tree memo. -/
structure singleSourceCache where
  vList : List PairedVersion
  vMap : List (Version × Revision)
  rMap : List (Revision × List Version)
  infos : List ((Revision × String × Nat) × (Manifest × Lock))
  ptrees : List (Revision × PackageTree)

/-- Modelled from the spec: the empty memory cache. -/
def newMemoryCache : singleSourceCache :=
  { vList := [], vMap := [], rMap := [], infos := [], ptrees := [] }

/-- Modelled from the spec: forward lookup version → revision. -/
def singleSourceCache.toRevision (c : singleSourceCache) (v : Version) : Option Revision :=
  alistGet c.vMap v

/-- Modelled from the spec: reverse lookup revision → versions; `none`
distinguishes "unknown" from "known empty". -/
def singleSourceCache.getVersionsFor (c : singleSourceCache) (r : Revision) : Option (List Version) :=
  alistGet c.rMap r

/-- Modelled from the spec: idempotent note that a revision was observed. -/
def singleSourceCache.markRevisionExists (c : singleSourceCache) (r : Revision) : singleSourceCache :=
  match alistGet c.rMap r with
  | some _ => c
  | none => { c with rMap := alistPut c.rMap r [] }

/-- Modelled from the spec: add `v` to the reverse index under `r`. -/
def rmapAdd (m : List (Revision × List Version)) (r : Revision) (v : Version) :
    List (Revision × List Version) :=
  match alistGet m r with
  | some vs => alistPut m r (vs ++ [v])
  | none => alistPut m r [v]

/-- Modelled from the spec: install a version list; with `flush` both
indices are replaced wholesale, otherwise the new pairs are merged in. -/
def singleSourceCache.storeVersionMap (c : singleSourceCache) (pvl : List PairedVersion)
    (flush : Bool) : singleSourceCache :=
  if flush then
    { c with
      vList := pvl
      vMap := pvl.map (fun p => (p.1, p.2))
      rMap := pvl.foldl (fun m p => rmapAdd m p.2 p.1) [] }
  else
    { c with
      vList := pvl
      vMap := pvl.foldl (fun m p => alistPut m p.1 p.2) c.vMap
      rMap := pvl.foldl (fun m p => rmapAdd m p.2 p.1) c.rMap }

/-- Modelled from the spec: the whole current version list. -/
def singleSourceCache.getAllVersions (c : singleSourceCache) : List PairedVersion :=
  c.vList

/-- Modelled from the spec: manifest/lock memo lookup, keyed by
(revision, analyzer name, analyzer version). -/
def singleSourceCache.getManifestAndLock (c : singleSourceCache) (r : Revision)
    (an : ProjectAnalyzer) : Option (Manifest × Lock) :=
  alistGet c.infos (r, an.name, an.vers)

/-- Modelled from the spec: manifest/lock memo store. -/
def singleSourceCache.setManifestAndLock (c : singleSourceCache) (r : Revision)
    (an : ProjectAnalyzer) (m : Manifest) (l : Lock) : singleSourceCache :=
  { c with infos := alistPut c.infos (r, an.name, an.vers) (m, l) }

/-- Modelled from the spec: package-tree memo lookup. -/
def singleSourceCache.getPackageTree (c : singleSourceCache) (r : Revision) :
    Option PackageTree :=
  alistGet c.ptrees r

/-- Modelled from the spec: package-tree memo store. -/
def singleSourceCache.setPackageTree (c : singleSourceCache) (r : Revision)
    (pt : PackageTree) : singleSourceCache :=
  { c with ptrees := alistPut c.ptrees r pt }

/-- Behaviour oracle for the `source` interface: one response field per
backend operation of the VCS adapter. -/
structure source where
  existsLocally : Bool
  existsUpstream : Bool
  upstreamURL : String
  sourceType : String
  initLocal : Option GoErr
  updateLocal : Option GoErr
  listVersions : Except GoErr (List PairedVersion)
  getManifestAndLock : ProjectRoot → Revision → ProjectAnalyzer → Except GoErr (Manifest × Lock)
  listPackages : ProjectRoot → Revision → Except GoErr PackageTree
  revisionPresentIn : Revision → Bool × Option GoErr
  exportRevisionTo : Revision → String → Option GoErr

/-- The per-source gateway: monotone state bitset, selected adapter (absent
until the `sourceIsSetUp` step ran), candidate-probe outcome (`maybe.try`:
an adapter plus incidentally satisfied state bits, or an error), and the
single-source cache. -/
structure sourceGateway where
  srcState : Nat
  src : Option source
  maybe : Except GoErr (source × Nat)
  cache : singleSourceCache

/-- `a &&& ~~~b` on machine words, expressed on `Nat` with kernel-reducible
operations: bit `i` is set iff it is set in `a` and clear in `b`. -/
def bitAndNot (a b : Nat) : Nat :=
  a ^^^ (a &&& b)

/-- One arm of the `switch flag` inside `sourceGateway.require`: the work
for a single state bit.  Returns the updated gateway, the calls dispatched,
the incidentally satisfied `addlState`, and the step's error. -/
def requireStep (sg : sourceGateway) (flag : Nat) :
    sourceGateway × List CallTag × Nat × Option GoErr :=
  if flag = sourceIsSetUp then
    match sg.maybe with
    | Except.ok (s, addl) => ({ sg with src := some s }, [CallTag.maybeTry], addl, none)
    | Except.error e => ({ sg with src := none }, [CallTag.maybeTry], 0, some e)
  else if flag = sourceExistsUpstream then
    match sg.src with
    | none => (sg, [], 0, some GoErr.nilSrc)
    | some s =>
      if s.existsUpstream then (sg, [CallTag.srcPing], 0, none)
      else (sg, [CallTag.srcPing], 0,
        some (GoErr.msg (s.upstreamURL ++ " does not exist upstream")))
  else if flag = sourceExistsLocally then
    match sg.src with
    | none => (sg, [], 0, some GoErr.nilSrc)
    | some s =>
      if s.existsLocally then (sg, [], 0, none)
      else
        match s.initLocal with
        | none => (sg, [CallTag.srcInit], sourceHasLatestLocally, none)
        | some e => (sg, [CallTag.srcInit], 0,
            some (GoErr.wrapped
              (s.upstreamURL ++ " does not exist in the local cache and fetching failed") e))
  else if flag = sourceHasLatestVersionList then
    match sg.src with
    | none => (sg, [], 0, some GoErr.nilSrc)
    | some s =>
      match s.listVersions with
      | Except.ok _pvl => (sg, [CallTag.listVersions], 0, none)
      | Except.error e =>
        ({ sg with cache := sg.cache.storeVersionMap [] true },
          [CallTag.listVersions], 0, some e)
  else if flag = sourceHasLatestLocally then
    match sg.src with
    | none => (sg, [], 0, some GoErr.nilSrc)
    | some s =>
      match s.updateLocal with
      | none => (sg, [CallTag.srcFetch], 0, none)
      | some e => (sg, [CallTag.srcFetch], 0, some e)
  else (sg, [], 0, none)

/-- The five state bits in the order the `require` loop visits them. -/
def sourceFlags : List Nat :=
  [sourceIsSetUp, sourceExistsUpstream, sourceExistsLocally,
   sourceHasLatestVersionList, sourceHasLatestLocally]

/-- The `for todo != 0` loop of `sourceGateway.require`: visit each bit
still in `todo` in ascending order; on a step error return it with the
step's bit as `errState`; on success OR `flag | addlState` into the state
and clear it from `todo`. -/
def requireGo (sg : sourceGateway) (todo : Nat) :
    List Nat → sourceGateway × List CallTag × Nat × Option GoErr
  | [] => (sg, [], 0, none)
  | flag :: rest =>
    if todo = 0 then (sg, [], 0, none)
    else if todo &&& flag ≠ 0 then
      match requireStep sg flag with
      | (sg1, log1, _, some e) => (sg1, log1, flag, some e)
      | (sg1, log1, addl, none) =>
        let checked := flag ||| addl
        match requireGo { sg1 with srcState := sg1.srcState ||| checked }
            (bitAndNot todo checked) rest with
        | (sg3, log3, es, err) => (sg3, log1 ++ log3, es, err)
    else requireGo sg todo rest

/-- `sourceGateway.require(wanted)`: `todo := (^srcState) & wanted`, then
the ascending-bit loop. -/
def sourceGateway.require (sg : sourceGateway) (wanted : Nat) :
    sourceGateway × List CallTag × Nat × Option GoErr :=
  requireGo sg (bitAndNot wanted sg.srcState) sourceFlags

/-- `sourceGateway.convertToRevision`: cache hit, else definitive miss when
the version list is already latest, else require the list and re-check. -/
def sourceGateway.convertToRevision (sg : sourceGateway) (v : Version) :
    Except GoErr Revision × sourceGateway × List CallTag :=
  match sg.cache.toRevision v with
  | some r => (Except.ok r, sg, [])
  | none =>
    if sg.srcState &&& sourceHasLatestVersionList ≠ 0 then
      (Except.error (noSuchVersion v), sg, [])
    else
      match sg.require (sourceIsSetUp ||| sourceHasLatestVersionList) with
      | (sg1, log1, _, some e) => (Except.error e, sg1, log1)
      | (sg1, log1, _, none) =>
        match sg1.cache.toRevision v with
        | some r => (Except.ok r, sg1, log1)
        | none => (Except.error (noSuchVersion v), sg1, log1)

/-- `sourceGateway.syncLocal`. -/
def sourceGateway.syncLocal (sg : sourceGateway) :
    Option GoErr × sourceGateway × List CallTag :=
  match sg.require (sourceIsSetUp ||| sourceExistsLocally ||| sourceHasLatestLocally) with
  | (sg1, log1, _, e) => (e, sg1, log1)

/-- `sourceGateway.checkExistence`: two sequential flag checks, each an
early `return false` on a failed requirement. -/
def sourceGateway.checkExistence (sg : sourceGateway) (ex : Nat) :
    Bool × sourceGateway × List CallTag :=
  if ex &&& existsUpstream ≠ 0 then
    match sg.require (sourceIsSetUp ||| sourceExistsUpstream) with
    | (sg1, log1, _, some _) => (false, sg1, log1)
    | (sg1, log1, _, none) =>
      if ex &&& existsInCache ≠ 0 then
        match sg1.require (sourceIsSetUp ||| sourceExistsLocally) with
        | (sg2, log2, _, some _) => (false, sg2, log1 ++ log2)
        | (sg2, log2, _, none) => (true, sg2, log1 ++ log2)
      else (true, sg1, log1)
  else if ex &&& existsInCache ≠ 0 then
    match sg.require (sourceIsSetUp ||| sourceExistsLocally) with
    | (sg1, log1, _, some _) => (false, sg1, log1)
    | (sg1, log1, _, none) => (true, sg1, log1)
  else (true, sg, [])

/-- `sourceGateway.exportVersionTo`: require `set_up` and `exists_locally`
first, then resolve the version, then dispatch the adapter export. -/
def sourceGateway.exportVersionTo (sg : sourceGateway) (v : Version) (dest : String) :
    Option GoErr × sourceGateway × List CallTag :=
  match sg.require (sourceIsSetUp ||| sourceExistsLocally) with
  | (sg1, log1, _, some e) => (some e, sg1, log1)
  | (sg1, log1, _, none) =>
    match sg1.convertToRevision v with
    | (Except.error e, sg2, log2) => (some e, sg2, log1 ++ log2)
    | (Except.ok r, sg2, log2) =>
      match sg2.src with
      | none => (some GoErr.nilSrc, sg2, log1 ++ log2)
      | some s =>
        match s.exportRevisionTo r dest with
        | some e => (some e, sg2, log1 ++ log2 ++ [CallTag.exportTree])
        | none => (none, sg2, log1 ++ log2 ++ [CallTag.exportTree])

/-- `sourceGateway.getManifestAndLock`: resolve first, then cache hit
short-circuits, else require `set_up`/`exists_locally`, dispatch the
adapter, and memoize on success. -/
def sourceGateway.getManifestAndLock (sg : sourceGateway) (pr : ProjectRoot)
    (v : Version) (an : ProjectAnalyzer) :
    Except GoErr (Manifest × Lock) × sourceGateway × List CallTag :=
  match sg.convertToRevision v with
  | (Except.error e, sg1, log1) => (Except.error e, sg1, log1)
  | (Except.ok r, sg1, log1) =>
    match sg1.cache.getManifestAndLock r an with
    | some ml => (Except.ok ml, sg1, log1)
    | none =>
      match sg1.require (sourceIsSetUp ||| sourceExistsLocally) with
      | (sg2, log2, _, some e) => (Except.error e, sg2, log1 ++ log2)
      | (sg2, log2, _, none) =>
        match sg2.src with
        | none => (Except.error GoErr.nilSrc, sg2, log1 ++ log2)
        | some s =>
          match s.getManifestAndLock pr r an with
          | Except.error e =>
            (Except.error e, sg2, log1 ++ log2 ++ [CallTag.getManifestAndLock])
          | Except.ok (m, l) =>
            (Except.ok (m, l),
              { sg2 with cache := sg2.cache.setManifestAndLock r an m l },
              log1 ++ log2 ++ [CallTag.getManifestAndLock])

/-- `sourceGateway.listPackages`: same shape as `getManifestAndLock`, over
the package-tree memo. -/
def sourceGateway.listPackages (sg : sourceGateway) (pr : ProjectRoot) (v : Version) :
    Except GoErr PackageTree × sourceGateway × List CallTag :=
  match sg.convertToRevision v with
  | (Except.error e, sg1, log1) => (Except.error e, sg1, log1)
  | (Except.ok r, sg1, log1) =>
    match sg1.cache.getPackageTree r with
    | some pt => (Except.ok pt, sg1, log1)
    | none =>
      match sg1.require (sourceIsSetUp ||| sourceExistsLocally) with
      | (sg2, log2, _, some e) => (Except.error e, sg2, log1 ++ log2)
      | (sg2, log2, _, none) =>
        match sg2.src with
        | none => (Except.error GoErr.nilSrc, sg2, log1 ++ log2)
        | some s =>
          match s.listPackages pr r with
          | Except.error e =>
            (Except.error e, sg2, log1 ++ log2 ++ [CallTag.listPackages])
          | Except.ok pt =>
            (Except.ok pt,
              { sg2 with cache := sg2.cache.setPackageTree r pt },
              log1 ++ log2 ++ [CallTag.listPackages])

/-- `sourceGateway.listVersions`: require, then read the whole cached list. -/
def sourceGateway.listVersions (sg : sourceGateway) :
    Except GoErr (List PairedVersion) × sourceGateway × List CallTag :=
  match sg.require (sourceIsSetUp ||| sourceExistsUpstream ||| sourceHasLatestVersionList) with
  | (sg1, log1, _, some e) => (Except.error e, sg1, log1)
  | (sg1, log1, _, none) => (Except.ok sg1.cache.getAllVersions, sg1, log1)

/-- `sourceGateway.revisionPresentIn`: require, cache hit ⇒ true, else ask
the adapter directly (no supervisor dispatch) and mark the cache only on a
positive, error-free answer. -/
def sourceGateway.revisionPresentIn (sg : sourceGateway) (r : Revision) :
    (Bool × Option GoErr) × sourceGateway × List CallTag :=
  match sg.require (sourceIsSetUp ||| sourceExistsLocally) with
  | (sg1, log1, _, some e) => ((false, some e), sg1, log1)
  | (sg1, log1, _, none) =>
    match sg1.cache.getVersionsFor r with
    | some _ => ((true, none), sg1, log1)
    | none =>
      match sg1.src with
      | none => ((false, some GoErr.nilSrc), sg1, log1)
      | some s =>
        match s.revisionPresentIn r with
        | (true, none) =>
          ((true, none), { sg1 with cache := sg1.cache.markRevisionExists r }, log1)
        | pe => (pe, sg1, log1)

/-- `sourceGateway.sourceURL`: require `set_up`, then the adapter's URL. -/
def sourceGateway.sourceURL (sg : sourceGateway) :
    Except GoErr String × sourceGateway × List CallTag :=
  match sg.require sourceIsSetUp with
  | (sg1, log1, _, some e) => (Except.error e, sg1, log1)
  | (sg1, log1, _, none) =>
    match sg1.src with
    | none => (Except.error GoErr.nilSrc, sg1, log1)
    | some s => (Except.ok s.upstreamURL, sg1, log1)

/-- Behaviour oracle for the `repo` object wrapped by `baseVCSSource`
(fields named after the methods `source.go` calls on `bs.crepo.r`). -/
structure vcsRepo where
  Vcs : String
  CheckLocal : Bool
  Ping : Bool
  Remote : String
  LocalPath : String
  IsReference : String → Bool

/-- The cache-repository holder (`crepo *repo` with its `r` field). -/
structure repo where
  r : vcsRepo

/-- `baseVCSSource`: the shared backend-adapter base. -/
structure baseVCSSource where
  crepo : repo

/-- `baseVCSSource.existsUpstream`: `return !bs.crepo.r.Ping()`. -/
def baseVCSSource.existsUpstream (bs : baseVCSSource) : Bool :=
  !bs.crepo.r.Ping

/-- `baseVCSSource.existsLocally`: `return bs.crepo.r.CheckLocal()`. -/
def baseVCSSource.existsLocally (bs : baseVCSSource) : Bool :=
  bs.crepo.r.CheckLocal

/-- `baseVCSSource.revisionPresentIn`: `return bs.crepo.r.IsReference(string(r)), nil`. -/
def baseVCSSource.revisionPresentIn (bs : baseVCSSource) (r : Revision) :
    Bool × Option GoErr :=
  (bs.crepo.r.IsReference r, none)

/-- The public gateway operations, as abstract syntax, for stating
properties of arbitrary operation sequences. -/
inductive GwOp where
  | syncLocalOp
  | checkExistenceOp (ex : Nat)
  | exportVersionToOp (v : Version) (dest : String)
  | getManifestAndLockOp (pr : ProjectRoot) (v : Version) (an : ProjectAnalyzer)
  | listPackagesOp (pr : ProjectRoot) (v : Version)
  | convertToRevisionOp (v : Version)
  | listVersionsOp
  | revisionPresentInOp (r : Revision)
  | sourceURLOp

/-- Run one public operation for its effect on the gateway. -/
def applyOp (sg : sourceGateway) : GwOp → sourceGateway
  | GwOp.syncLocalOp => sg.syncLocal.2.1
  | GwOp.checkExistenceOp ex => (sg.checkExistence ex).2.1
  | GwOp.exportVersionToOp v dest => (sg.exportVersionTo v dest).2.1
  | GwOp.getManifestAndLockOp pr v an => (sg.getManifestAndLock pr v an).2.1
  | GwOp.listPackagesOp pr v => (sg.listPackages pr v).2.1
  | GwOp.convertToRevisionOp v => (sg.convertToRevision v).2.1
  | GwOp.listVersionsOp => sg.listVersions.2.1
  | GwOp.revisionPresentInOp r => (sg.revisionPresentIn r).2.1
  | GwOp.sourceURLOp => sg.sourceURL.2.1

/-- Bitset inclusion: every bit of `a` is a bit of `b`. -/
def bitSub (a b : Nat) : Prop :=
  a ||| b = b

/-- The call tags `require` can emit (everything but the three
payload-dispatch categories of the query operations). -/
def requireTags : List CallTag :=
  [CallTag.maybeTry, CallTag.srcPing, CallTag.srcInit,
   CallTag.listVersions, CallTag.srcFetch]

/-- A well-behaved adapter oracle: everything present and succeeding. -/
def srcA : source :=
  { existsLocally := true
    existsUpstream := true
    upstreamURL := "u"
    sourceType := "git"
    initLocal := none
    updateLocal := none
    listVersions := Except.ok [("v1", "r1")]
    getManifestAndLock := fun _ _ _ => Except.ok (7, 3)
    listPackages := fun _ _ => Except.ok 5
    revisionPresentIn := fun _ => (true, none)
    exportRevisionTo := fun _ _ => none }

/-- A concrete analyzer identity. -/
def anA : ProjectAnalyzer := { name := "a", vers := 1 }

/-- Adapter whose `listVersions` dispatch fails. -/
def adBug : source :=
  { srcA with listVersions := Except.error (GoErr.msg "lsv fail") }

/-- A set-up gateway holding a non-empty version map, bound to `adBug`. -/
def cgBug : sourceGateway :=
  { srcState := sourceIsSetUp
    src := some adBug
    maybe := Except.ok (adBug, 0)
    cache := { newMemoryCache with
                vList := [("v1", "r1")]
                vMap := [("v1", "r1")]
                rMap := [("r1", ["v1"])] } }

/-- The gateway left behind by `cgBug`'s failing version-list require. -/
def cgBugF : sourceGateway :=
  (cgBug.require (sourceIsSetUp ||| sourceHasLatestVersionList)).1

/-- Adapter whose `listVersions` dispatch succeeds with a fresh pair. -/
def adBugOk : source :=
  { srcA with listVersions := Except.ok [("v2", "r2")] }

/-- Like `cgBug` but with the succeeding adapter. -/
def cgBugOk : sourceGateway :=
  { cgBug with src := some adBugOk, maybe := Except.ok (adBugOk, 0) }

/-- A gateway that already holds the latest version list (bit set) and an
empty cache: every lookup is a definitive miss. -/
def cgAuth : sourceGateway :=
  { srcState := sourceIsSetUp ||| sourceHasLatestVersionList
    src := some srcA
    maybe := Except.ok (srcA, 0)
    cache := newMemoryCache }

/-- Adapter with no local clone (clone succeeds) and an empty upstream
version list: every version is unresolvable. -/
def ad3 : source :=
  { srcA with existsLocally := false, listVersions := Except.ok [] }

/-- A fresh gateway bound to `ad3`. -/
def cg3 : sourceGateway :=
  { srcState := 0
    src := none
    maybe := Except.ok (ad3, 0)
    cache := newMemoryCache }

/-- `cg3` after requiring `set_up` and `exists_locally`. -/
def cg3s1 : sourceGateway :=
  (cg3.require (sourceIsSetUp ||| sourceExistsLocally)).1

/-- `cg3s1` after the failing resolution of `"v1"`. -/
def cg3s2 : sourceGateway :=
  (cg3s1.convertToRevision "v1").2.1

/-- Adapter that is unreachable upstream. -/
def ad5 : source :=
  { srcA with existsUpstream := false }

/-- Fresh gateway whose probe incidentally reports `exists_locally`. -/
def cg5 : sourceGateway :=
  { srcState := 0
    src := none
    maybe := Except.ok (ad5, sourceExistsLocally)
    cache := newMemoryCache }

/-- Fresh gateway with a pre-populated version map, for the manifest-cache
scenario. -/
def cgM : sourceGateway :=
  { srcState := 0
    src := none
    maybe := Except.ok (srcA, 0)
    cache := { newMemoryCache with vMap := [("v1", "r1")] } }

/-- `cgM` after one successful `getManifestAndLock`. -/
def cgM1 : sourceGateway :=
  (cgM.getManifestAndLock "root" "v1" anA).2.1

/-- A gateway already set up and existing locally, with an empty cache. -/
def cgR : sourceGateway :=
  { srcState := sourceIsSetUp ||| sourceExistsLocally
    src := some srcA
    maybe := Except.ok (srcA, 0)
    cache := newMemoryCache }

/-- Adapter whose manifest/lock dispatch fails. -/
def adE : source :=
  { srcA with getManifestAndLock := fun _ _ _ => Except.error (GoErr.msg "mlb") }

/-- Fresh gateway bound to `adE`, with pre-existing memo entries. -/
def cgE : sourceGateway :=
  { srcState := 0
    src := none
    maybe := Except.ok (adE, 0)
    cache := { newMemoryCache with
                vMap := [("v1", "r1")]
                infos := [(("rX", "a", 1), (9, 9))]
                ptrees := [("rX", 4)] } }

/-- `cgE` after the failing `getManifestAndLock`. -/
def cgE1 : sourceGateway :=
  (cgE.getManifestAndLock "root" "v1" anA).2.1

/-- A base VCS adapter whose repository ping reports `false`. -/
def bsW : baseVCSSource :=
  { crepo := { r := { Vcs := "git"
                      CheckLocal := true
                      Ping := false
                      Remote := "u"
                      LocalPath := "p"
                      IsReference := fun _ => true } } }

/-! ### Bitset lemmas -/

theorem bitSub_iff {a b : Nat} :
    bitSub a b ↔ ∀ i, a.testBit i = true → b.testBit i = true := by
  constructor
  · intro h i hi
    have h2 : (a ||| b).testBit i = b.testBit i := by rw [h]
    rw [Nat.testBit_lor, hi] at h2
    simpa using h2.symm
  · intro h
    apply Nat.eq_of_testBit_eq
    intro i
    rw [Nat.testBit_lor]
    cases ha : a.testBit i
    · simp
    · simp [h i ha]

theorem bitSub_refl (a : Nat) : bitSub a a :=
  bitSub_iff.mpr fun _ h => h

theorem bitSub_trans {a b c : Nat} (h1 : bitSub a b) (h2 : bitSub b c) : bitSub a c :=
  bitSub_iff.mpr fun i hi => bitSub_iff.mp h2 i (bitSub_iff.mp h1 i hi)

theorem bitSub_lor_left (a c : Nat) : bitSub a (a ||| c) :=
  bitSub_iff.mpr fun i hi => by rw [Nat.testBit_lor, hi]; rfl

theorem bitSub_lor_right (a c : Nat) : bitSub c (a ||| c) :=
  bitSub_iff.mpr fun i hi => by rw [Nat.testBit_lor, hi, Bool.or_true]

theorem bitAndNot_testBit (a b i : Nat) :
    (bitAndNot a b).testBit i = (a.testBit i && !b.testBit i) := by
  unfold bitAndNot
  rw [Nat.testBit_xor, Nat.testBit_land]
  cases a.testBit i <;> cases b.testBit i <;> rfl

theorem and_pow_ne {n k : Nat} : n &&& 2 ^ k ≠ 0 ↔ n.testBit k = true := by
  rw [Nat.and_two_pow]
  cases h : n.testBit k
  · simp
  · simp only [Bool.toNat_true, Nat.one_mul]
    have h2 : 0 < 2 ^ k := Nat.pos_pow_of_pos k (by decide)
    constructor
    · intro _
      trivial
    · intro _
      omega

theorem and_pow_eq_self {n k : Nat} (h : n.testBit k = true) : n &&& 2 ^ k = 2 ^ k := by
  rw [Nat.and_two_pow, h]
  simp

theorem and_pow_eq_zero {n k : Nat} (h : n.testBit k = false) : n &&& 2 ^ k = 0 := by
  rw [Nat.and_two_pow, h]
  simp

theorem and_eq_zero_iff {a b : Nat} :
    a &&& b = 0 ↔ ∀ i, a.testBit i = false ∨ b.testBit i = false := by
  constructor
  · intro h i
    have h2 : (a &&& b).testBit i = false := by rw [h, Nat.zero_testBit]
    rw [Nat.testBit_land] at h2
    cases ha : a.testBit i
    · exact Or.inl rfl
    · rw [ha] at h2
      simp at h2
      exact Or.inr h2
  · intro h
    apply Nat.eq_of_testBit_eq
    intro i
    rw [Nat.testBit_land, Nat.zero_testBit]
    cases h i with
    | inl ha => rw [ha]; rfl
    | inr hb => rw [hb, Bool.and_false]

/-! ### `requireStep` facts -/

theorem requireStep_srcState (sg : sourceGateway) (flag : Nat) :
    (requireStep sg flag).1.srcState = sg.srcState := by
  unfold requireStep
  repeat' split
  all_goals rfl

theorem requireStep_cache_infos (sg : sourceGateway) (flag : Nat) :
    (requireStep sg flag).1.cache.infos = sg.cache.infos := by
  unfold requireStep
  repeat' split
  all_goals simp [singleSourceCache.storeVersionMap]

theorem requireStep_cache_ptrees (sg : sourceGateway) (flag : Nat) :
    (requireStep sg flag).1.cache.ptrees = sg.cache.ptrees := by
  unfold requireStep
  repeat' split
  all_goals simp [singleSourceCache.storeVersionMap]

theorem requireStep_cache_ok (sg : sourceGateway) (flag : Nat)
    (sg1 : sourceGateway) (log1 : List CallTag) (addl : Nat)
    (h : requireStep sg flag = (sg1, log1, addl, none)) : sg1.cache = sg.cache := by
  unfold requireStep at h
  repeat' split at h
  all_goals simp_all
  all_goals rw [← h.1]

theorem requireStep_log (sg : sourceGateway) (flag : Nat) :
    ∀ t ∈ (requireStep sg flag).2.1, t ∈ requireTags := by
  unfold requireStep
  repeat' split
  all_goals simp [requireTags]

/-! ### `requireGo` facts -/

theorem requireGo_nil (sg : sourceGateway) (todo : Nat) :
    requireGo sg todo [] = (sg, [], 0, none) := rfl

theorem requireGo_cons (sg : sourceGateway) (todo flag : Nat) (rest : List Nat) :
    requireGo sg todo (flag :: rest) =
      if todo = 0 then (sg, [], 0, none)
      else if todo &&& flag ≠ 0 then
        match requireStep sg flag with
        | (sg1, log1, _, some e) => (sg1, log1, flag, some e)
        | (sg1, log1, addl, none) =>
          match requireGo { sg1 with srcState := sg1.srcState ||| (flag ||| addl) }
              (bitAndNot todo (flag ||| addl)) rest with
          | (sg3, log3, es, err) => (sg3, log1 ++ log3, es, err)
      else requireGo sg todo rest := rfl

theorem requireGo_srcState_mono (flags : List Nat) :
    ∀ (sg : sourceGateway) (todo : Nat),
      bitSub sg.srcState (requireGo sg todo flags).1.srcState := by
  induction flags with
  | nil =>
    intro sg todo
    rw [requireGo_nil]
    exact bitSub_refl _
  | cons flag rest ih =>
    intro sg todo
    rw [requireGo_cons]
    split
    · exact bitSub_refl _
    · split
      · split
        · next sg1 log1 x e heq =>
            have h2 := requireStep_srcState sg flag
            rw [heq] at h2
            simp only at h2 ⊢
            rw [h2]
            exact bitSub_refl _
        · next sg1 log1 addl heq =>
            split
            next sg3 log3 es err hr =>
              have h2 := requireStep_srcState sg flag
              rw [heq] at h2
              simp only at h2
              have ih2 := ih { sg1 with srcState := sg1.srcState ||| (flag ||| addl) }
                  (bitAndNot todo (flag ||| addl))
              rw [hr] at ih2
              simp only at ih2 ⊢
              refine bitSub_trans ?_ ih2
              rw [h2]
              exact bitSub_lor_left _ _
      · exact ih sg todo

theorem requireGo_log (flags : List Nat) :
    ∀ (sg : sourceGateway) (todo : Nat),
      ∀ t ∈ (requireGo sg todo flags).2.1, t ∈ requireTags := by
  induction flags with
  | nil =>
    intro sg todo t ht
    rw [requireGo_nil] at ht
    simp at ht
  | cons flag rest ih =>
    intro sg todo t ht
    rw [requireGo_cons] at ht
    split at ht
    · simp at ht
    · split at ht
      · split at ht
        · next sg1 log1 x e heq =>
            have hstep := requireStep_log sg flag
            rw [heq] at hstep
            exact hstep t ht
        · next sg1 log1 addl heq =>
            split at ht
            next sg3 log3 es err hr =>
              have hstep := requireStep_log sg flag
              rw [heq] at hstep
              simp only [List.mem_append] at ht
              cases ht with
              | inl h1 => exact hstep t h1
              | inr h2 =>
                have ih2 := ih { sg1 with srcState := sg1.srcState ||| (flag ||| addl) }
                    (bitAndNot todo (flag ||| addl)) t
                rw [hr] at ih2
                exact ih2 h2
      · exact ih sg todo t ht

theorem requireGo_cache_infos (flags : List Nat) :
    ∀ (sg : sourceGateway) (todo : Nat),
      (requireGo sg todo flags).1.cache.infos = sg.cache.infos := by
  induction flags with
  | nil =>
    intro sg todo
    rw [requireGo_nil]
  | cons flag rest ih =>
    intro sg todo
    rw [requireGo_cons]
    split
    · rfl
    · split
      · split
        · next sg1 log1 x e heq =>
            have hstep := requireStep_cache_infos sg flag
            rw [heq] at hstep
            exact hstep
        · next sg1 log1 addl heq =>
            split
            next sg3 log3 es err hr =>
              have hstep := requireStep_cache_infos sg flag
              rw [heq] at hstep
              simp only at hstep ⊢
              have ih2 := ih { sg1 with srcState := sg1.srcState ||| (flag ||| addl) }
                  (bitAndNot todo (flag ||| addl))
              rw [hr] at ih2
              simp only at ih2
              rw [ih2]
              exact hstep
      · exact ih sg todo

theorem requireGo_cache_ptrees (flags : List Nat) :
    ∀ (sg : sourceGateway) (todo : Nat),
      (requireGo sg todo flags).1.cache.ptrees = sg.cache.ptrees := by
  induction flags with
  | nil =>
    intro sg todo
    rw [requireGo_nil]
  | cons flag rest ih =>
    intro sg todo
    rw [requireGo_cons]
    split
    · rfl
    · split
      · split
        · next sg1 log1 x e heq =>
            have hstep := requireStep_cache_ptrees sg flag
            rw [heq] at hstep
            exact hstep
        · next sg1 log1 addl heq =>
            split
            next sg3 log3 es err hr =>
              have hstep := requireStep_cache_ptrees sg flag
              rw [heq] at hstep
              simp only at hstep ⊢
              have ih2 := ih { sg1 with srcState := sg1.srcState ||| (flag ||| addl) }
                  (bitAndNot todo (flag ||| addl))
              rw [hr] at ih2
              simp only at ih2
              rw [ih2]
              exact hstep
      · exact ih sg todo

theorem requireGo_cache_ok (flags : List Nat) :
    ∀ (sg : sourceGateway) (todo : Nat) (sg' : sourceGateway) (log : List CallTag) (es : Nat),
      requireGo sg todo flags = (sg', log, es, none) → sg'.cache = sg.cache := by
  induction flags with
  | nil =>
    intro sg todo sg' log es h
    rw [requireGo_nil] at h
    cases h
    rfl
  | cons flag rest ih =>
    intro sg todo sg' log es h
    rw [requireGo_cons] at h
    split at h
    · cases h
      rfl
    · split at h
      · split at h
        · next sg1 log1 x e heq =>
            simp at h
        · next sg1 log1 addl heq =>
            split at h
            next sg3 log3 es3 err3 hr =>
              simp only [Prod.mk.injEq] at h
              obtain ⟨h1, _, _, h4⟩ := h
              have hc1 := requireStep_cache_ok sg flag sg1 log1 addl heq
              subst h4
              have hc3 := ih _ _ _ _ _ hr
              rw [← h1, hc3]
              simp only
              exact hc1
      · exact ih sg todo sg' log es h

theorem bitAndNot_self_disjoint (a b : Nat) : bitAndNot a b &&& b = 0 := by
  apply and_eq_zero_iff.mpr
  intro i
  rw [bitAndNot_testBit]
  cases hb : b.testBit i
  · exact Or.inr rfl
  · exact Or.inl (by simp)

theorem requireGo_fail_not_set (flags : List Nat) :
    ∀ (sg : sourceGateway) (todo : Nat) (sg' : sourceGateway) (log : List CallTag)
      (f : Nat) (e : GoErr),
      (∀ a ∈ flags, ∃ k, a = 2 ^ k) →
      todo &&& sg.srcState = 0 →
      requireGo sg todo flags = (sg', log, f, some e) →
      sg'.srcState &&& f = 0 := by
  induction flags with
  | nil =>
    intro sg todo sg' log f e _ _ h
    rw [requireGo_nil] at h
    simp at h
  | cons flag rest ih =>
    intro sg todo sg' log f e hpow hdisj h
    rw [requireGo_cons] at h
    split at h
    · simp at h
    · split at h
      · split at h
        · next sg1 log1 x e0 heq =>
            simp only [Prod.mk.injEq] at h
            obtain ⟨h1, _, h3, _⟩ := h
            obtain ⟨k, hk⟩ := hpow flag (List.mem_cons_self flag rest)
            have hstate : sg1.srcState = sg.srcState := by
              have h2 := requireStep_srcState sg flag
              rw [heq] at h2
              exact h2
            rw [← h1, ← h3, hstate, hk]
            apply and_pow_eq_zero
            have htodo : todo.testBit k = true := by
              apply and_pow_ne.mp
              rw [← hk]
              assumption
            rcases and_eq_zero_iff.mp hdisj k with hl | hr
            · rw [htodo] at hl
              exact absurd hl (by simp)
            · exact hr
        · next sg1 log1 addl heq =>
            split at h
            next sg3 log3 es3 err3 hr =>
              simp only [Prod.mk.injEq] at h
              obtain ⟨h1, _, h3, h4⟩ := h
              have hstate : sg1.srcState = sg.srcState := by
                have h2 := requireStep_srcState sg flag
                rw [heq] at h2
                exact h2
              have hdisj2 : bitAndNot todo (flag ||| addl) &&&
                  ({ sg1 with srcState := sg1.srcState ||| (flag ||| addl) } :
                    sourceGateway).srcState = 0 := by
                apply and_eq_zero_iff.mpr
                intro i
                rw [bitAndNot_testBit]
                have hred : ({ sg1 with srcState := sg1.srcState ||| (flag ||| addl) } :
                    sourceGateway).srcState = sg1.srcState ||| (flag ||| addl) := rfl
                rw [hred]
                cases hc : (flag ||| addl).testBit i
                · rcases and_eq_zero_iff.mp hdisj i with hl | hrr
                  · exact Or.inl (by rw [hl]; rfl)
                  · refine Or.inr ?_
                    rw [Nat.testBit_lor, hc, hstate, hrr]
                    rfl
                · exact Or.inl (by rw [Bool.not_true, Bool.and_false])
              have hrec : requireGo
                  { sg1 with srcState := sg1.srcState ||| (flag ||| addl) }
                  (bitAndNot todo (flag ||| addl)) rest = (sg3, log3, f, some e) := by
                rw [hr, h3, h4]
              have := ih _ _ _ _ _ _ (fun a ha => hpow a (List.mem_cons_of_mem flag ha)) hdisj2 hrec
              rw [← h1]
              exact this
      · exact ih sg todo sg' log f e (fun a ha => hpow a (List.mem_cons_of_mem flag ha)) hdisj h


theorem requireGo_fail_below (flags : List Nat) :
    ∀ (sg : sourceGateway) (todo : Nat) (sg' : sourceGateway) (log : List CallTag)
      (f : Nat) (e : GoErr),
      (∀ a ∈ flags, ∃ k, a = 2 ^ k) →
      flags.Pairwise (· < ·) →
      requireGo sg todo flags = (sg', log, f, some e) →
      ∀ fl ∈ flags, fl < f → todo &&& fl ≠ 0 → sg'.srcState &&& fl = fl := by
  induction flags with
  | nil =>
    intro sg todo sg' log f e _ _ h
    rw [requireGo_nil] at h
    simp at h
  | cons flag rest ih =>
    intro sg todo sg' log f e hpow hsort h fl hmem hlt hne
    rw [requireGo_cons] at h
    split at h
    · simp at h
    · split at h
      · split at h
        · next sg1 log1 x e0 heq =>
            simp only [Prod.mk.injEq] at h
            obtain ⟨h1, _, h3, _⟩ := h
            rcases List.mem_cons.mp hmem with hfl | hfl
            · subst hfl
              rw [← h3] at hlt
              exact absurd hlt (Nat.lt_irrefl _)
            · have hgt : flag < fl := (List.pairwise_cons.mp hsort).1 fl hfl
              rw [← h3] at hlt
              omega
        · next sg1 log1 addl heq =>
            split at h
            next sg3 log3 es3 err3 hr =>
              simp only [Prod.mk.injEq] at h
              obtain ⟨h1, _, h3, h4⟩ := h
              have hstate : sg1.srcState = sg.srcState := by
                have h2 := requireStep_srcState sg flag
                rw [heq] at h2
                exact h2
              have hmono : bitSub (sg1.srcState ||| (flag ||| addl)) sg3.srcState := by
                have hm := requireGo_srcState_mono rest
                    { sg1 with srcState := sg1.srcState ||| (flag ||| addl) }
                    (bitAndNot todo (flag ||| addl))
                rw [hr] at hm
                exact hm
              rcases List.mem_cons.mp hmem with hfl | hfl
              · subst hfl
                obtain ⟨k, hk⟩ := hpow fl (List.mem_cons_self fl rest)
                have hck : (fl ||| addl).testBit k = true := by
                  rw [Nat.testBit_lor, hk, Nat.testBit_two_pow_self]
                  rfl
                rw [← h1, hk]
                apply and_pow_eq_self
                apply bitSub_iff.mp hmono
                rw [Nat.testBit_lor, hck, Bool.or_true]
              · obtain ⟨k, hk⟩ := hpow fl (List.mem_cons_of_mem flag hfl)
                by_cases hz : bitAndNot todo (flag ||| addl) &&& fl = 0
                · have htodo : todo.testBit k = true := by
                    apply and_pow_ne.mp
                    rw [← hk]
                    exact hne
                  have hcov : (flag ||| addl).testBit k = true := by
                    cases hcc : (flag ||| addl).testBit k
                    · exfalso
                      apply absurd hz
                      rw [hk]
                      apply and_pow_ne.mpr
                      rw [bitAndNot_testBit, htodo, hcc]
                      rfl
                    · rfl
                  rw [← h1, hk]
                  apply and_pow_eq_self
                  apply bitSub_iff.mp hmono
                  rw [Nat.testBit_lor, hcov, Bool.or_true]
                · have hrec : requireGo
                      { sg1 with srcState := sg1.srcState ||| (flag ||| addl) }
                      (bitAndNot todo (flag ||| addl)) rest = (sg3, log3, f, some e) := by
                    rw [hr, h3, h4]
                  have ih2 := ih { sg1 with srcState := sg1.srcState ||| (flag ||| addl) }
                      (bitAndNot todo (flag ||| addl)) sg3 log3 f e
                      (fun a ha => hpow a (List.mem_cons_of_mem flag ha))
                      (List.pairwise_cons.mp hsort).2 hrec fl hfl hlt hz
                  rw [← h1]
                  exact ih2
      · next hflag =>
          rcases List.mem_cons.mp hmem with hfl | hfl
          · subst hfl
            exact absurd hne hflag
          · exact ih sg todo sg' log f e
              (fun a ha => hpow a (List.mem_cons_of_mem flag ha))
              (List.pairwise_cons.mp hsort).2 h fl hfl hlt hne


/-! ### `require`-level and `convertToRevision`-level helper lemmas -/

theorem require_mono (sg : sourceGateway) (w : Nat) (sg' : sourceGateway)
    (log : List CallTag) (es : Nat) (oe : Option GoErr)
    (h : sg.require w = (sg', log, es, oe)) : bitSub sg.srcState sg'.srcState := by
  have hm := requireGo_srcState_mono sourceFlags sg (bitAndNot w sg.srcState)
  have h2 : requireGo sg (bitAndNot w sg.srcState) sourceFlags = (sg', log, es, oe) := h
  rw [h2] at hm
  exact hm

theorem require_cache_ok (sg : sourceGateway) (w : Nat) (sg' : sourceGateway)
    (log : List CallTag) (es : Nat)
    (h : sg.require w = (sg', log, es, none)) : sg'.cache = sg.cache := by
  exact requireGo_cache_ok sourceFlags sg (bitAndNot w sg.srcState) sg' log es h

theorem require_cache_infos (sg : sourceGateway) (w : Nat) :
    (sg.require w).1.cache.infos = sg.cache.infos :=
  requireGo_cache_infos sourceFlags sg (bitAndNot w sg.srcState)

theorem require_cache_ptrees (sg : sourceGateway) (w : Nat) :
    (sg.require w).1.cache.ptrees = sg.cache.ptrees :=
  requireGo_cache_ptrees sourceFlags sg (bitAndNot w sg.srcState)

theorem require_log (sg : sourceGateway) (w : Nat) :
    ∀ t ∈ (sg.require w).2.1, t ∈ requireTags :=
  requireGo_log sourceFlags sg (bitAndNot w sg.srcState)

theorem convert_mono (sg : sourceGateway) (v : Version) :
    bitSub sg.srcState (sg.convertToRevision v).2.1.srcState := by
  unfold sourceGateway.convertToRevision
  split
  · exact bitSub_refl _
  · split
    · exact bitSub_refl _
    · split
      · next sg1 log1 x e heq =>
          exact require_mono sg _ sg1 log1 x (some e) heq
      · next sg1 log1 x heq =>
          have hm := require_mono sg _ sg1 log1 x none heq
          split
          · exact hm
          · exact hm

theorem convert_cache_infos (sg : sourceGateway) (v : Version) :
    (sg.convertToRevision v).2.1.cache.infos = sg.cache.infos := by
  unfold sourceGateway.convertToRevision
  split
  · rfl
  · split
    · rfl
    · split
      · next sg1 log1 x e heq =>
          have h2 := require_cache_infos sg (sourceIsSetUp ||| sourceHasLatestVersionList)
          rw [heq] at h2
          exact h2
      · next sg1 log1 x heq =>
          have h2 := require_cache_infos sg (sourceIsSetUp ||| sourceHasLatestVersionList)
          rw [heq] at h2
          split
          · exact h2
          · exact h2

theorem convert_cache_ptrees (sg : sourceGateway) (v : Version) :
    (sg.convertToRevision v).2.1.cache.ptrees = sg.cache.ptrees := by
  unfold sourceGateway.convertToRevision
  split
  · rfl
  · split
    · rfl
    · split
      · next sg1 log1 x e heq =>
          have h2 := require_cache_ptrees sg (sourceIsSetUp ||| sourceHasLatestVersionList)
          rw [heq] at h2
          exact h2
      · next sg1 log1 x heq =>
          have h2 := require_cache_ptrees sg (sourceIsSetUp ||| sourceHasLatestVersionList)
          rw [heq] at h2
          split
          · exact h2
          · exact h2

theorem convert_log (sg : sourceGateway) (v : Version) :
    ∀ t ∈ (sg.convertToRevision v).2.2, t ∈ requireTags := by
  unfold sourceGateway.convertToRevision
  split
  · intro t ht
    simp at ht
  · split
    · intro t ht
      simp at ht
    · split
      · next sg1 log1 x e heq =>
          intro t ht
          have h2 := require_log sg (sourceIsSetUp ||| sourceHasLatestVersionList) t
          rw [heq] at h2
          exact h2 ht
      · next sg1 log1 x heq =>
          have h2 := require_log sg (sourceIsSetUp ||| sourceHasLatestVersionList)
          rw [heq] at h2
          split
          · exact h2
          · exact h2

theorem convert_ok_cache (sg : sourceGateway) (v : Version) (r : Revision)
    (sg1 : sourceGateway) (log1 : List CallTag)
    (h : sg.convertToRevision v = (Except.ok r, sg1, log1)) :
    sg1.cache.toRevision v = some r := by
  unfold sourceGateway.convertToRevision at h
  split at h
  · next r0 hv =>
      simp only [Prod.mk.injEq, Except.ok.injEq] at h
      obtain ⟨hr0, hsg, _⟩ := h
      rw [← hsg, hv, hr0]
  · split at h
    · simp at h
    · split at h
      · simp at h
      · next sg2 log2 x heq =>
          split at h
          · next r0 hv2 =>
              simp only [Prod.mk.injEq, Except.ok.injEq] at h
              obtain ⟨hr0, hsg, _⟩ := h
              rw [← hsg, hv2, hr0]
          · simp at h


/-! ### Per-operation monotonicity of the state bitset -/

theorem syncLocal_mono (sg : sourceGateway) :
    bitSub sg.srcState sg.syncLocal.2.1.srcState := by
  unfold sourceGateway.syncLocal
  split
  next sg1 log1 x e heq => exact require_mono sg _ sg1 log1 x e heq

theorem checkExistence_mono (sg : sourceGateway) (ex : Nat) :
    bitSub sg.srcState (sg.checkExistence ex).2.1.srcState := by
  unfold sourceGateway.checkExistence
  split
  · split
    · next sg1 log1 x e heq =>
        exact require_mono sg _ sg1 log1 x (some e) heq
    · next sg1 log1 x heq =>
        have h1 := require_mono sg _ sg1 log1 x none heq
        split
        · split
          · next sg2 log2 y e2 heq2 =>
              exact bitSub_trans h1 (require_mono sg1 _ sg2 log2 y (some e2) heq2)
          · next sg2 log2 y heq2 =>
              exact bitSub_trans h1 (require_mono sg1 _ sg2 log2 y none heq2)
        · exact h1
  · split
    · split
      · next sg1 log1 x e heq =>
          exact require_mono sg _ sg1 log1 x (some e) heq
      · next sg1 log1 x heq =>
          exact require_mono sg _ sg1 log1 x none heq
    · exact bitSub_refl _

theorem exportVersionTo_mono (sg : sourceGateway) (v : Version) (dest : String) :
    bitSub sg.srcState (sg.exportVersionTo v dest).2.1.srcState := by
  unfold sourceGateway.exportVersionTo
  split
  · next sg1 log1 x e heq =>
      exact require_mono sg _ sg1 log1 x (some e) heq
  · next sg1 log1 x heq =>
      have h1 := require_mono sg _ sg1 log1 x none heq
      have h2 := convert_mono sg1 v
      split
      · next e sg2 log2 heq2 =>
          rw [heq2] at h2
          exact bitSub_trans h1 h2
      · next r sg2 log2 heq2 =>
          rw [heq2] at h2
          split
          · exact bitSub_trans h1 h2
          · split
            · exact bitSub_trans h1 h2
            · exact bitSub_trans h1 h2

theorem getManifestAndLock_mono (sg : sourceGateway) (pr : ProjectRoot) (v : Version)
    (an : ProjectAnalyzer) :
    bitSub sg.srcState (sg.getManifestAndLock pr v an).2.1.srcState := by
  unfold sourceGateway.getManifestAndLock
  have h2 := convert_mono sg v
  split
  · next e sg1 log1 heq =>
      rw [heq] at h2
      exact h2
  · next r sg1 log1 heq =>
      rw [heq] at h2
      split
      · exact h2
      · split
        · next sg2 log2 x e2 heq2 =>
            exact bitSub_trans h2 (require_mono sg1 _ sg2 log2 x (some e2) heq2)
        · next sg2 log2 x heq2 =>
            have h3 := require_mono sg1 _ sg2 log2 x none heq2
            split
            · exact bitSub_trans h2 h3
            · split
              · exact bitSub_trans h2 h3
              · exact bitSub_trans h2 h3

theorem listPackages_mono (sg : sourceGateway) (pr : ProjectRoot) (v : Version) :
    bitSub sg.srcState (sg.listPackages pr v).2.1.srcState := by
  unfold sourceGateway.listPackages
  have h2 := convert_mono sg v
  split
  · next e sg1 log1 heq =>
      rw [heq] at h2
      exact h2
  · next r sg1 log1 heq =>
      rw [heq] at h2
      split
      · exact h2
      · split
        · next sg2 log2 x e2 heq2 =>
            exact bitSub_trans h2 (require_mono sg1 _ sg2 log2 x (some e2) heq2)
        · next sg2 log2 x heq2 =>
            have h3 := require_mono sg1 _ sg2 log2 x none heq2
            split
            · exact bitSub_trans h2 h3
            · split
              · exact bitSub_trans h2 h3
              · exact bitSub_trans h2 h3

theorem listVersions_mono (sg : sourceGateway) :
    bitSub sg.srcState sg.listVersions.2.1.srcState := by
  unfold sourceGateway.listVersions
  split
  · next sg1 log1 x e heq =>
      exact require_mono sg _ sg1 log1 x (some e) heq
  · next sg1 log1 x heq =>
      exact require_mono sg _ sg1 log1 x none heq

theorem revisionPresentIn_mono (sg : sourceGateway) (r : Revision) :
    bitSub sg.srcState (sg.revisionPresentIn r).2.1.srcState := by
  unfold sourceGateway.revisionPresentIn
  split
  · next sg1 log1 x e heq =>
      exact require_mono sg _ sg1 log1 x (some e) heq
  · next sg1 log1 x heq =>
      have h1 := require_mono sg _ sg1 log1 x none heq
      split
      · exact h1
      · split
        · exact h1
        · split
          · exact h1
          · exact h1

theorem sourceURL_mono (sg : sourceGateway) :
    bitSub sg.srcState sg.sourceURL.2.1.srcState := by
  unfold sourceGateway.sourceURL
  split
  · next sg1 log1 x e heq =>
      exact require_mono sg _ sg1 log1 x (some e) heq
  · next sg1 log1 x heq =>
      have h1 := require_mono sg _ sg1 log1 x none heq
      split
      · exact h1
      · exact h1

theorem applyOp_mono (sg : sourceGateway) (op : GwOp) :
    bitSub sg.srcState (applyOp sg op).srcState := by
  cases op with
  | syncLocalOp => exact syncLocal_mono sg
  | checkExistenceOp ex => exact checkExistence_mono sg ex
  | exportVersionToOp v dest => exact exportVersionTo_mono sg v dest
  | getManifestAndLockOp pr v an => exact getManifestAndLock_mono sg pr v an
  | listPackagesOp pr v => exact listPackages_mono sg pr v
  | convertToRevisionOp v => exact convert_mono sg v
  | listVersionsOp => exact listVersions_mono sg
  | revisionPresentInOp r => exact revisionPresentIn_mono sg r
  | sourceURLOp => exact sourceURL_mono sg


/-! ### Cache set/get coherence helpers -/

theorem setManifestAndLock_toRevision (c : singleSourceCache) (r : Revision)
    (an : ProjectAnalyzer) (m : Manifest) (l : Lock) (v : Version) :
    (c.setManifestAndLock r an m l).toRevision v = c.toRevision v := rfl

theorem setManifestAndLock_get (c : singleSourceCache) (r : Revision)
    (an : ProjectAnalyzer) (m : Manifest) (l : Lock) :
    (c.setManifestAndLock r an m l).getManifestAndLock r an = some (m, l) := by
  unfold singleSourceCache.getManifestAndLock singleSourceCache.setManifestAndLock
  simp [alistGet, alistPut]

/-! ### Claim theorems -/

/-- C1: in `require`, the `has_latest_version_list` step stores the
version list into the cache exactly when the dispatch FAILS, not when it
succeeds: on a failing dispatch the (empty) list is flushed into the cache
and the error is returned, while on a successful dispatch nothing is
stored.  This closed evaluation documents both sides of the inversion at a
concrete gateway. -/
theorem c1_store_on_error_evidence :
    (cgBug.require (sourceIsSetUp ||| sourceHasLatestVersionList)).2.2.2 =
      some (GoErr.msg "lsv fail") ∧
    (cgBug.require (sourceIsSetUp ||| sourceHasLatestVersionList)).1.cache.vMap = [] ∧
    (cgBug.require (sourceIsSetUp ||| sourceHasLatestVersionList)).1.cache.vList = [] ∧
    cgBug.cache.vMap = [("v1", "r1")] ∧
    (cgBugOk.require (sourceIsSetUp ||| sourceHasLatestVersionList)).2.2.2 = none ∧
    (cgBugOk.require (sourceIsSetUp ||| sourceHasLatestVersionList)).1.cache.vMap =
      [("v1", "r1")] ∧
    adBugOk.listVersions = Except.ok [("v2", "r2")] ∧
    (cgBugOk.require (sourceIsSetUp ||| sourceHasLatestVersionList)).1.cache.toRevision "v2" =
      none :=
  ⟨rfl, rfl, rfl, rfl, rfl, rfl, rfl, rfl⟩

/-- C2: `convertToRevision` follows the spec algorithm: (a) a cache hit is
returned with no state change and no dispatch; (b) on a miss with
`has_latest_version_list` already set, the no-such-version error is
returned with no state change and no dispatch; (c) on a miss with the bit
clear, the bit is required — a require error is propagated — and (d) the
cache is re-checked, a second miss giving the no-such-version error. -/
theorem c2_convert_to_revision (sg : sourceGateway) (v : Version) :
    (∀ r, sg.cache.toRevision v = some r →
      sg.convertToRevision v = (Except.ok r, sg, [])) ∧
    (sg.cache.toRevision v = none →
      sg.srcState &&& sourceHasLatestVersionList ≠ 0 →
      sg.convertToRevision v = (Except.error (noSuchVersion v), sg, [])) ∧
    (∀ sg1 log1 es e, sg.cache.toRevision v = none →
      sg.srcState &&& sourceHasLatestVersionList = 0 →
      sg.require (sourceIsSetUp ||| sourceHasLatestVersionList) = (sg1, log1, es, some e) →
      sg.convertToRevision v = (Except.error e, sg1, log1)) ∧
    (∀ sg1 log1 es, sg.cache.toRevision v = none →
      sg.srcState &&& sourceHasLatestVersionList = 0 →
      sg.require (sourceIsSetUp ||| sourceHasLatestVersionList) = (sg1, log1, es, none) →
      (∀ r, sg1.cache.toRevision v = some r →
        sg.convertToRevision v = (Except.ok r, sg1, log1)) ∧
      (sg1.cache.toRevision v = none →
        sg.convertToRevision v = (Except.error (noSuchVersion v), sg1, log1))) := by
  refine ⟨?_, ?_, ?_, ?_⟩
  · intro r h
    unfold sourceGateway.convertToRevision
    rw [h]
  · intro h hbit
    unfold sourceGateway.convertToRevision
    rw [h]
    simp only [hbit]
    rw [if_pos hbit]
  · intro sg1 log1 es e h hbit hreq
    have hcond : ¬(sg.srcState &&& sourceHasLatestVersionList ≠ 0) := by
      rw [hbit]
      simp
    unfold sourceGateway.convertToRevision
    rw [h, if_neg hcond, hreq]
  · intro sg1 log1 es h hbit hreq
    have hcond : ¬(sg.srcState &&& sourceHasLatestVersionList ≠ 0) := by
      rw [hbit]
      simp
    constructor
    · intro r hr
      unfold sourceGateway.convertToRevision
      rw [h, if_neg hcond, hreq]
      dsimp only
      rw [hr]
    · intro hr
      unfold sourceGateway.convertToRevision
      rw [h, if_neg hcond, hreq]
      dsimp only
      rw [hr]

/-- C2 witness: on `cgAuth` (bit set, empty cache) the lookup of `"v9"` is
a definitive miss: the error comes back with the gateway untouched and no
calls dispatched. -/
theorem c2_convert_witness :
    cgAuth.convertToRevision "v9" = (Except.error (noSuchVersion "v9"), cgAuth, []) :=
  (c2_convert_to_revision cgAuth "v9").2.1 rfl (by decide)

/-- C4: the state bitset is monotone across every sequence of public
gateway operations: no operation ever clears a bit, succeeding or not. -/
theorem c4_state_monotone (ops : List GwOp) (sg : sourceGateway) :
    bitSub sg.srcState (List.foldl applyOp sg ops).srcState := by
  induction ops generalizing sg with
  | nil => exact bitSub_refl _
  | cons op rest ih =>
    rw [List.foldl_cons]
    exact bitSub_trans (applyOp_mono sg op) (ih (applyOp sg op))

/-- C8: `baseVCSSource.existsUpstream` returns the logical negation of the
repository Ping result: it reports `true` exactly when `Ping` is `false`. -/
theorem c8_exists_upstream_negates_ping (bs : baseVCSSource) :
    (bs.crepo.r.Ping = false → baseVCSSource.existsUpstream bs = true) ∧
    (baseVCSSource.existsUpstream bs = true → bs.crepo.r.Ping = false) := by
  unfold baseVCSSource.existsUpstream
  cases h : bs.crepo.r.Ping <;> simp

/-- C8 witness: with `Ping = false` the adapter reports upstream existence. -/
theorem c8_exists_upstream_witness : baseVCSSource.existsUpstream bsW = true :=
  (c8_exists_upstream_negates_ping bsW).1 rfl

/-- C10: `checkExistence` with neither the exists-upstream nor the
exists-in-cache flag returns `true`, leaves the gateway untouched, and
dispatches nothing. -/
theorem c10_check_existence_noop (sg : sourceGateway) (ex : Nat)
    (h1 : ex &&& existsUpstream = 0) (h2 : ex &&& existsInCache = 0) :
    sg.checkExistence ex = (true, sg, []) := by
  unfold sourceGateway.checkExistence
  simp [h1, h2]

/-- C10 witness: the vendor-root flag alone triggers no requirement. -/
theorem c10_check_existence_witness :
    cgR.checkExistence existsInVendorRoot = (true, cgR, []) :=
  c10_check_existence_noop cgR existsInVendorRoot (by decide) (by decide)


/-- C3 counterexample: on the fresh gateway `cg3`, exporting the
unresolvable version `"v1"` fails with the no-such-version error, yet a
`source-init` dispatch did occur — the states are required BEFORE the
version is resolved, refuting resolve-first and refuting "no source-init
dispatch occurs for an unresolvable version". -/
theorem c3_export_counterexample :
    (cg3.exportVersionTo "v1" "d").1 = some (noSuchVersion "v1") ∧
    CallTag.srcInit ∈ (cg3.exportVersionTo "v1" "d").2.2 := by
  constructor
  · rfl
  · decide

/-- C3 amended: `exportVersionTo` requires `set_up` and `exists_locally`
FIRST (so set-up/init dispatches may occur) and only then resolves the
version; when resolution fails, its error is returned and no export
dispatch occurs. -/
theorem c3_export_amended (sg : sourceGateway) (v : Version) (dest : String)
    (sg1 : sourceGateway) (log1 : List CallTag) (es : Nat)
    (hreq : sg.require (sourceIsSetUp ||| sourceExistsLocally) = (sg1, log1, es, none))
    (e : GoErr) (sg2 : sourceGateway) (log2 : List CallTag)
    (hconv : sg1.convertToRevision v = (Except.error e, sg2, log2)) :
    sg.exportVersionTo v dest = (some e, sg2, log1 ++ log2) ∧
    CallTag.exportTree ∉ log1 ++ log2 := by
  constructor
  · unfold sourceGateway.exportVersionTo
    rw [hreq]
    dsimp only
    rw [hconv]
  · intro hmem
    rw [List.mem_append] at hmem
    have hnotin : CallTag.exportTree ∉ requireTags := by decide
    cases hmem with
    | inl h1 =>
      have := require_log sg (sourceIsSetUp ||| sourceExistsLocally) CallTag.exportTree
      rw [hreq] at this
      exact hnotin (this h1)
    | inr h2 =>
      have := convert_log sg1 v CallTag.exportTree
      rw [hconv] at this
      exact hnotin (this h2)

/-- C3 amended witness: the concrete run on `cg3`. -/
theorem c3_export_amended_witness :
    cg3.exportVersionTo "v1" "d" =
      (some (noSuchVersion "v1"), cg3s2,
        [CallTag.maybeTry, CallTag.srcInit] ++ [CallTag.listVersions]) ∧
    CallTag.exportTree ∉ [CallTag.maybeTry, CallTag.srcInit] ++ [CallTag.listVersions] :=
  c3_export_amended cg3 "v1" "d" cg3s1 [CallTag.maybeTry, CallTag.srcInit] 0 rfl
    (noSuchVersion "v1") cg3s2 [CallTag.listVersions] rfl

/-- C5: when `require` fails at the step for bit `f`, the error is returned
with: the pre-call state preserved (monotonicity), the failing bit itself
not set, and every wanted bit strictly below the failing bit set in the
resulting state.  (Bits ABOVE the failing step may also have been set, as
incidentals of earlier steps — see the counterexample.) -/
theorem c5_require_failure (sg : sourceGateway) (wanted : Nat) (sg' : sourceGateway)
    (log : List CallTag) (f : Nat) (e : GoErr)
    (h : sg.require wanted = (sg', log, f, some e)) :
    bitSub sg.srcState sg'.srcState ∧
    sg'.srcState &&& f = 0 ∧
    ∀ fl ∈ sourceFlags, fl < f → wanted &&& fl ≠ 0 → sg'.srcState &&& fl = fl := by
  have hpow : ∀ a ∈ sourceFlags, ∃ k, a = 2 ^ k := by
    intro a ha
    simp only [sourceFlags, sourceIsSetUp, sourceExistsUpstream, sourceExistsLocally,
      sourceHasLatestVersionList, sourceHasLatestLocally, List.mem_cons,
      List.mem_singleton, List.not_mem_nil, or_false] at ha
    rcases ha with h1 | h1 | h1 | h1 | h1 <;> subst h1
    · exact ⟨0, rfl⟩
    · exact ⟨1, rfl⟩
    · exact ⟨2, rfl⟩
    · exact ⟨3, rfl⟩
    · exact ⟨4, rfl⟩
  have hsort : sourceFlags.Pairwise (· < ·) := by decide
  have hdisj : bitAndNot wanted sg.srcState &&& sg.srcState = 0 :=
    bitAndNot_self_disjoint _ _
  have h' : requireGo sg (bitAndNot wanted sg.srcState) sourceFlags =
      (sg', log, f, some e) := h
  refine ⟨require_mono sg wanted sg' log f (some e) h, ?_, ?_⟩
  · exact requireGo_fail_not_set sourceFlags sg _ sg' log f e hpow hdisj h'
  · intro fl hmem hlt hne
    by_cases hz : bitAndNot wanted sg.srcState &&& fl = 0
    · obtain ⟨k, hk⟩ := hpow fl hmem
      have hw : wanted.testBit k = true := by
        apply and_pow_ne.mp
        rw [← hk]
        exact hne
      have hst : sg.srcState.testBit k = true := by
        cases hcc : sg.srcState.testBit k
        · exfalso
          apply absurd hz
          rw [hk]
          apply and_pow_ne.mpr
          rw [bitAndNot_testBit, hw, hcc]
          rfl
        · rfl
      rw [hk]
      apply and_pow_eq_self
      exact bitSub_iff.mp (require_mono sg wanted sg' log f (some e) h) k hst
    · exact requireGo_fail_below sourceFlags sg _ sg' log f e hpow hsort h' fl hmem hlt hz

/-- C5 counterexample: on `cg5` the probe incidentally reports
`exists_locally` (bit 4) and the ping step (bit 2) then fails: the call
fails at bit 2 yet bit 4 — a bit ABOVE the failing step, not set before
the call — is set by the call. -/
theorem c5_require_counterexample :
    (cg5.require (sourceIsSetUp ||| sourceExistsUpstream)).2.2.1 = sourceExistsUpstream ∧
    (cg5.require (sourceIsSetUp ||| sourceExistsUpstream)).2.2.2.isSome = true ∧
    sourceExistsUpstream < sourceExistsLocally ∧
    cg5.srcState &&& sourceExistsLocally = 0 ∧
    (cg5.require (sourceIsSetUp ||| sourceExistsUpstream)).1.srcState &&&
      sourceExistsLocally = sourceExistsLocally :=
  ⟨rfl, rfl, by decide, rfl, rfl⟩

/-- C5 witness: `cgBug`'s version-list require fails at bit 8; the amended
guarantees hold there. -/
theorem c5_require_failure_witness :
    bitSub cgBug.srcState cgBugF.srcState ∧
    cgBugF.srcState &&& sourceHasLatestVersionList = 0 ∧
    ∀ fl ∈ sourceFlags, fl < sourceHasLatestVersionList →
      (sourceIsSetUp ||| sourceHasLatestVersionList) &&& fl ≠ 0 →
      cgBugF.srcState &&& fl = fl :=
  c5_require_failure cgBug (sourceIsSetUp ||| sourceHasLatestVersionList) cgBugF
    [CallTag.listVersions] sourceHasLatestVersionList (GoErr.msg "lsv fail") rfl


/-- C6: `getManifestAndLock` resolves the version first and then a cached
(revision, analyzer) entry short-circuits: it is returned without any
further requirement or dispatch.  Consequently a second call with the same
arguments after a successful call performs no dispatch at all, leaves the
gateway untouched, and returns the identical pair. -/
theorem c6_manifest_cache (sg : sourceGateway) (pr : ProjectRoot) (v : Version)
    (an : ProjectAnalyzer) :
    (∀ r sg1 log1 m l, sg.convertToRevision v = (Except.ok r, sg1, log1) →
      sg1.cache.getManifestAndLock r an = some (m, l) →
      sg.getManifestAndLock pr v an = (Except.ok (m, l), sg1, log1)) ∧
    (∀ m l sg1 log1, sg.getManifestAndLock pr v an = (Except.ok (m, l), sg1, log1) →
      sg1.getManifestAndLock pr v an = (Except.ok (m, l), sg1, [])) := by
  constructor
  · intro r sg1 log1 m l hconv hcache
    unfold sourceGateway.getManifestAndLock
    rw [hconv]
    dsimp only
    rw [hcache]
  · intro m l sg1 log1 h
    rcases hconv : sg.convertToRevision v with ⟨cr, sgA, logA⟩
    unfold sourceGateway.getManifestAndLock at h
    rw [hconv] at h
    cases cr with
    | error e => simp at h
    | ok r =>
      dsimp only at h
      have hcrA : sgA.cache.toRevision v = some r :=
        convert_ok_cache sg v r sgA logA hconv
      rcases hml : sgA.cache.getManifestAndLock r an with _ | ml0
      · rw [hml] at h
        dsimp only at h
        rcases hreq : sgA.require (sourceIsSetUp ||| sourceExistsLocally) with
          ⟨sgB, logB, esB, oeB⟩
        rw [hreq] at h
        cases oeB with
        | some e2 => simp at h
        | none =>
          dsimp only at h
          rcases hsrc : sgB.src with _ | sa
          · rw [hsrc] at h
            simp at h
          · rw [hsrc] at h
            dsimp only at h
            rcases hd : sa.getManifestAndLock pr r an with e3 | ml1
            · rw [hd] at h
              simp at h
            · rcases ml1 with ⟨m0, l0⟩
              rw [hd] at h
              dsimp only at h
              simp only [Prod.mk.injEq, Except.ok.injEq] at h
              obtain ⟨⟨hm, hl⟩, hsg, _⟩ := h
              have hcB : sgB.cache = sgA.cache :=
                require_cache_ok sgA _ sgB logB esB hreq
              have hcr1 : sg1.cache.toRevision v = some r := by
                rw [← hsg]
                show (sgB.cache.setManifestAndLock r an m0 l0).toRevision v = some r
                rw [setManifestAndLock_toRevision, hcB, hcrA]
              have hml1 : sg1.cache.getManifestAndLock r an = some (m, l) := by
                rw [← hsg]
                show (sgB.cache.setManifestAndLock r an m0 l0).getManifestAndLock r an =
                  some (m, l)
                rw [setManifestAndLock_get, hm, hl]
              have hconv2 : sg1.convertToRevision v = (Except.ok r, sg1, []) := by
                unfold sourceGateway.convertToRevision
                rw [hcr1]
              unfold sourceGateway.getManifestAndLock
              rw [hconv2]
              dsimp only
              rw [hml1]
      · rcases ml0 with ⟨m0, l0⟩
        rw [hml] at h
        dsimp only at h
        simp only [Prod.mk.injEq, Except.ok.injEq] at h
        obtain ⟨⟨hm, hl⟩, hsg, _⟩ := h
        subst hsg
        have hconv2 : sgA.convertToRevision v = (Except.ok r, sgA, []) := by
          unfold sourceGateway.convertToRevision
          rw [hcrA]
        unfold sourceGateway.getManifestAndLock
        rw [hconv2]
        dsimp only
        rw [hml, hm, hl]

/-- C6 witness: after a first successful call on `cgM`, the second call
returns the identical pair with no calls and no change. -/
theorem c6_manifest_cache_witness :
    cgM1.getManifestAndLock "root" "v1" anA = (Except.ok (7, 3), cgM1, []) :=
  (c6_manifest_cache cgM "root" "v1" anA).2 7 3 cgM1
    [CallTag.maybeTry, CallTag.getManifestAndLock] rfl

/-- C7: after a successful requirement of `set_up` and `exists_locally`,
`revisionPresentIn` returns `true` on a cache hit without consulting the
adapter; on a miss it forwards the adapter answer, marks the cache exactly
on a positive error-free answer, and (last conjunct) the base VCS adapter
reports an absent revision as a plain `false`, never an error. -/
theorem c7_revision_present (sg : sourceGateway) (r : Revision) :
    (∀ sg1 log1 es vs,
      sg.require (sourceIsSetUp ||| sourceExistsLocally) = (sg1, log1, es, none) →
      sg1.cache.getVersionsFor r = some vs →
      sg.revisionPresentIn r = ((true, none), sg1, log1)) ∧
    (∀ sg1 log1 es s,
      sg.require (sourceIsSetUp ||| sourceExistsLocally) = (sg1, log1, es, none) →
      sg1.cache.getVersionsFor r = none → sg1.src = some s →
      s.revisionPresentIn r = (true, none) →
      sg.revisionPresentIn r =
        ((true, none), { sg1 with cache := sg1.cache.markRevisionExists r }, log1)) ∧
    (∀ sg1 log1 es s b oe,
      sg.require (sourceIsSetUp ||| sourceExistsLocally) = (sg1, log1, es, none) →
      sg1.cache.getVersionsFor r = none → sg1.src = some s →
      s.revisionPresentIn r = (b, oe) → (b = true → oe ≠ none) →
      sg.revisionPresentIn r = ((b, oe), sg1, log1)) ∧
    (∀ bs : baseVCSSource, (baseVCSSource.revisionPresentIn bs r).2 = none) := by
  refine ⟨?_, ?_, ?_, ?_⟩
  · intro sg1 log1 es vs hreq hvf
    unfold sourceGateway.revisionPresentIn
    rw [hreq]
    dsimp only
    rw [hvf]
  · intro sg1 log1 es s hreq hvf hsrc hrev
    unfold sourceGateway.revisionPresentIn
    rw [hreq]
    dsimp only
    rw [hvf]
    dsimp only
    rw [hsrc]
    dsimp only
    rw [hrev]
  · intro sg1 log1 es s b oe hreq hvf hsrc hrev hbo
    unfold sourceGateway.revisionPresentIn
    rw [hreq]
    dsimp only
    rw [hvf]
    dsimp only
    rw [hsrc]
    dsimp only
    cases b with
    | false =>
      cases oe with
      | none => rw [hrev]
      | some e0 => rw [hrev]
    | true =>
      cases oe with
      | none => exact absurd rfl (hbo rfl)
      | some e0 => rw [hrev]
  · intro bs
    rfl

/-- C7 witness: on `cgR` (already set up and local, empty cache) the miss
path takes the adapter answer `(true, none)` and marks the cache. -/
theorem c7_revision_present_witness :
    cgR.revisionPresentIn "r1" =
      ((true, none), { cgR with cache := cgR.cache.markRevisionExists "r1" }, []) :=
  (c7_revision_present cgR "r1").2.1 cgR [] 0 srcA rfl rfl rfl rfl

/-- C9: when `getManifestAndLock` or `listPackages` returns an error —
from resolution, from a requirement, or from the dispatched backend call —
the manifest/lock memo and the package-tree memo of the single-source
cache are unchanged. -/
theorem c9_dispatch_error_cache_unchanged (sg : sourceGateway) (pr : ProjectRoot)
    (v : Version) (an : ProjectAnalyzer) :
    (∀ e sg1 log1, sg.getManifestAndLock pr v an = (Except.error e, sg1, log1) →
      sg1.cache.infos = sg.cache.infos ∧ sg1.cache.ptrees = sg.cache.ptrees) ∧
    (∀ e sg1 log1, sg.listPackages pr v = (Except.error e, sg1, log1) →
      sg1.cache.infos = sg.cache.infos ∧ sg1.cache.ptrees = sg.cache.ptrees) := by
  constructor
  · intro e sg1 log1 h
    rcases hconv : sg.convertToRevision v with ⟨cr, sgA, logA⟩
    have hinfA : sgA.cache.infos = sg.cache.infos := by
      have h2 := convert_cache_infos sg v
      rw [hconv] at h2
      exact h2
    have hptA : sgA.cache.ptrees = sg.cache.ptrees := by
      have h2 := convert_cache_ptrees sg v
      rw [hconv] at h2
      exact h2
    unfold sourceGateway.getManifestAndLock at h
    rw [hconv] at h
    cases cr with
    | error e0 =>
      dsimp only at h
      simp only [Prod.mk.injEq, Except.error.injEq] at h
      obtain ⟨_, hsg, _⟩ := h
      rw [← hsg]
      exact ⟨hinfA, hptA⟩
    | ok r =>
      dsimp only at h
      rcases hml : sgA.cache.getManifestAndLock r an with _ | ml0
      · rw [hml] at h
        dsimp only at h
        rcases hreq : sgA.require (sourceIsSetUp ||| sourceExistsLocally) with
          ⟨sgB, logB, esB, oeB⟩
        rw [hreq] at h
        have hinfB : sgB.cache.infos = sgA.cache.infos := by
          have h2 := require_cache_infos sgA (sourceIsSetUp ||| sourceExistsLocally)
          rw [hreq] at h2
          exact h2
        have hptB : sgB.cache.ptrees = sgA.cache.ptrees := by
          have h2 := require_cache_ptrees sgA (sourceIsSetUp ||| sourceExistsLocally)
          rw [hreq] at h2
          exact h2
        cases oeB with
        | some e2 =>
          dsimp only at h
          simp only [Prod.mk.injEq] at h
          obtain ⟨_, hsg, _⟩ := h
          rw [← hsg]
          exact ⟨hinfB.trans hinfA, hptB.trans hptA⟩
        | none =>
          dsimp only at h
          rcases hsrc : sgB.src with _ | sa
          · rw [hsrc] at h
            dsimp only at h
            simp only [Prod.mk.injEq] at h
            obtain ⟨_, hsg, _⟩ := h
            rw [← hsg]
            exact ⟨hinfB.trans hinfA, hptB.trans hptA⟩
          · rw [hsrc] at h
            dsimp only at h
            rcases hd : sa.getManifestAndLock pr r an with e3 | ml1
            · rw [hd] at h
              dsimp only at h
              simp only [Prod.mk.injEq] at h
              obtain ⟨_, hsg, _⟩ := h
              rw [← hsg]
              exact ⟨hinfB.trans hinfA, hptB.trans hptA⟩
            · rcases ml1 with ⟨m0, l0⟩
              rw [hd] at h
              simp at h
      · rw [hml] at h
        simp at h
  · intro e sg1 log1 h
    rcases hconv : sg.convertToRevision v with ⟨cr, sgA, logA⟩
    have hinfA : sgA.cache.infos = sg.cache.infos := by
      have h2 := convert_cache_infos sg v
      rw [hconv] at h2
      exact h2
    have hptA : sgA.cache.ptrees = sg.cache.ptrees := by
      have h2 := convert_cache_ptrees sg v
      rw [hconv] at h2
      exact h2
    unfold sourceGateway.listPackages at h
    rw [hconv] at h
    cases cr with
    | error e0 =>
      dsimp only at h
      simp only [Prod.mk.injEq, Except.error.injEq] at h
      obtain ⟨_, hsg, _⟩ := h
      rw [← hsg]
      exact ⟨hinfA, hptA⟩
    | ok r =>
      dsimp only at h
      rcases hml : sgA.cache.getPackageTree r with _ | pt0
      · rw [hml] at h
        dsimp only at h
        rcases hreq : sgA.require (sourceIsSetUp ||| sourceExistsLocally) with
          ⟨sgB, logB, esB, oeB⟩
        rw [hreq] at h
        have hinfB : sgB.cache.infos = sgA.cache.infos := by
          have h2 := require_cache_infos sgA (sourceIsSetUp ||| sourceExistsLocally)
          rw [hreq] at h2
          exact h2
        have hptB : sgB.cache.ptrees = sgA.cache.ptrees := by
          have h2 := require_cache_ptrees sgA (sourceIsSetUp ||| sourceExistsLocally)
          rw [hreq] at h2
          exact h2
        cases oeB with
        | some e2 =>
          dsimp only at h
          simp only [Prod.mk.injEq] at h
          obtain ⟨_, hsg, _⟩ := h
          rw [← hsg]
          exact ⟨hinfB.trans hinfA, hptB.trans hptA⟩
        | none =>
          dsimp only at h
          rcases hsrc : sgB.src with _ | sa
          · rw [hsrc] at h
            dsimp only at h
            simp only [Prod.mk.injEq] at h
            obtain ⟨_, hsg, _⟩ := h
            rw [← hsg]
            exact ⟨hinfB.trans hinfA, hptB.trans hptA⟩
          · rw [hsrc] at h
            dsimp only at h
            rcases hd : sa.listPackages pr r with e3 | pt1
            · rw [hd] at h
              dsimp only at h
              simp only [Prod.mk.injEq] at h
              obtain ⟨_, hsg, _⟩ := h
              rw [← hsg]
              exact ⟨hinfB.trans hinfA, hptB.trans hptA⟩
            · rw [hd] at h
              simp at h
      · rw [hml] at h
        simp at h

/-- C9 witness: the failing manifest dispatch on `cgE` leaves both memos
exactly as they were. -/
theorem c9_dispatch_error_witness :
    cgE1.cache.infos = cgE.cache.infos ∧ cgE1.cache.ptrees = cgE.cache.ptrees :=
  (c9_dispatch_error_cache_unchanged cgE "root" "v1" anA).1 (GoErr.msg "mlb") cgE1
    [CallTag.maybeTry, CallTag.getManifestAndLock] rfl

end Gps
